import Mathlib

/-!
Verification of the People API end-to-end contract encoded by the repository's
Cypress test suite (`cypress/e2e` spec file and `cypress.config.js`).

The repository contains only the black-box test suite and its runner
configuration; no service implementation is present.  Accordingly:

* the test suite's helper functions (`uniqueName`, `makeTitanicPerson`,
  `assertPgResultShape`), the per-test pass predicates, and the runner
  configuration are embedded directly from the source;
* the People Resource Service itself is modelled from the specification
  (`spec.md` §3–§7): a store of person records plus, for each HTTP operation,
  a decidable "allowed response" relation capturing the nondeterministic
  choices the spec permits (status alternatives, error styles).

JSON values are represented by a first-order inductive type: arrays and
objects are spine-encoded (`arrCons`/`objCons`) so that decidable equality
can be derived; `jArrOf`/`jObjOf` convert from Lean lists.
-/

inductive JSValue where
  | jNull : JSValue
  | jBool : Bool → JSValue
  | jNum : ℚ → JSValue
  | jStr : String → JSValue
  | arrNil : JSValue
  | arrCons : JSValue → JSValue → JSValue
  | objNil : JSValue
  | objCons : String → JSValue → JSValue → JSValue
  deriving DecidableEq

/-- Build a JSON array value from a list of values. -/
def jArrOf : List JSValue → JSValue
  | [] => .arrNil
  | v :: vs => .arrCons v (jArrOf vs)

/-- Build a JSON object value from an association list. -/
def jObjOf : List (String × JSValue) → JSValue
  | [] => .objNil
  | (k, v) :: kvs => .objCons k v (jObjOf kvs)

/-- A JSON value is an object (Chai `to.be.an('object')`). -/
def JSValue.isObj : JSValue → Bool
  | .objNil => true
  | .objCons _ _ _ => true
  | _ => false

/-- A JSON value is an array (Chai `to.be.an('array')`). -/
def JSValue.isArr : JSValue → Bool
  | .arrNil => true
  | .arrCons _ _ => true
  | _ => false

/-- Property lookup on a JSON value: `some v` when the value is an object
carrying the key (JS `'k' in o` / `o.k` when present), `none` otherwise. -/
def JSValue.getProp : JSValue → String → Option JSValue
  | .objCons k v rest, key => if k = key then some v else rest.getProp key
  | _, _ => none

/-- The items of a JSON array value (`[]` on non-arrays). -/
def JSValue.arrItems : JSValue → List JSValue
  | .arrCons v rest => v :: rest.arrItems
  | _ => []

/-- The fields of a JSON object value (`[]` on non-objects). -/
def objFields : JSValue → List (String × JSValue)
  | .objCons k v rest => (k, v) :: objFields rest
  | _ => []

/-- Association-list lookup (first match), mirroring JS property access on
objects whose keys are distinct. -/
def objGet : List (String × JSValue) → String → Option JSValue
  | [], _ => none
  | (k, v) :: rest, key => if k = key then some v else objGet rest key

/-- Association-list update-or-append: the semantics of assigning one key
during a JS object-literal spread (existing key keeps its position and takes
the new value; a new key is appended). -/
def objSet : List (String × JSValue) → String → JSValue → List (String × JSValue)
  | [], k, v => [(k, v)]
  | (k0, v0) :: rest, k, v =>
      if k0 = k then (k, v) :: rest else (k0, v0) :: objSet rest k v

/-- Merge an override list into a base association list, one key at a time,
in order: the semantics of `{ ...base, ...overrides }` for plain objects. -/
def spreadMerge (base overrides : List (String × JSValue)) : List (String × JSValue) :=
  overrides.foldl (fun acc kv => objSet acc kv.1 kv.2) base

/-- `uniqueName(prefix)` from the test file:
`` `${prefix}-${Date.now()}-${Math.floor(Math.random() * 1e6)}` ``.
The two effectful reads (`Date.now()`, the random draw) are explicit
arguments `now` and `rand`. -/
def uniqueName (pre : String) (now rand : Nat) : String :=
  pre ++ "-" ++ toString now ++ "-" ++ toString rand

/-- The default fields of `makeTitanicPerson` from the test file (the object
literal before the spread of `overrides`). -/
def titanicDefaults (now rand : Nat) : List (String × JSValue) :=
  [ ("survived", .jNum 1),
    ("pclass", .jNum 3),
    ("name", .jStr (uniqueName "person" now rand)),
    ("sex", .jStr "male"),
    ("age", .jNum 30),
    ("siblings_spouses_abroad", .jNum 0),
    ("parents_children_abroad", .jNum 0),
    ("fare", .jNum 7.25) ]

/-- `makeTitanicPerson(overrides)` from the test file: the defaults object
with `overrides` spread over it.  `now`/`rand` feed the `uniqueName` call in
the `name` default. -/
def makeTitanicPerson (overrides : List (String × JSValue)) (now rand : Nat) : JSValue :=
  jObjOf (spreadMerge (titanicDefaults now rand) overrides)

/-- An HTTP response as observed by `cy.request`: status code, content-type
response header, parsed JSON body. -/
structure HttpResponse where
  status : Nat
  contentType : String
  body : JSValue
  deriving DecidableEq

/-- The first list starts the second one, character for character. -/
def charsLeading : List Char → List Char → Bool
  | [], _ => true
  | _ :: _, [] => false
  | a :: as, b :: bs => (a == b) && charsLeading as bs

/-- Substring test on character lists: `pat` occurs contiguously in `s`. -/
def charsInclude (pat : List Char) : List Char → Bool
  | [] => pat.isEmpty
  | c :: rest => charsLeading pat (c :: rest) || charsInclude pat rest

/-- Chai `expect(s).to.include(pat)` on strings: substring containment. -/
def strInclude (s pat : String) : Bool :=
  charsInclude pat.data s.data

/-- The content-type check every JSON-asserting test performs:
`expect(res.headers['content-type']).to.include('application/json')`. -/
def ctIncludesJson (ct : String) : Bool :=
  strInclude ct "application/json"

/-- `assertPgResultShape(resBody)` from the test file: the body is an object,
has a `rows` property, and `rows` is an array. -/
def assertPgResultShape (b : JSValue) : Bool :=
  b.isObj
    && (b.getProp "rows").isSome
    && (match b.getProp "rows" with
        | some v => v.isArr
        | none => false)

/-- The `rows` list of a response body (`[]` when absent or not an array). -/
def rowsOf (b : JSValue) : List JSValue :=
  match b.getProp "rows" with
  | some v => v.arrItems
  | none => []

/-- `resBody.rows[0]?.uuid` from the test file: the `uuid` property of the
first row, when a first row exists and carries one. -/
def firstRowUuid (b : JSValue) : Option JSValue :=
  (rowsOf b).head?.bind (fun row => row.getProp "uuid")

/-- Chai `expect(x).to.be.a('string')` on an optionally-present value:
present and a JSON string. -/
def isStrVal : Option JSValue → Bool
  | some (.jStr _) => true
  | _ => false

/-- Pass predicate of the test `POST /people — creates a person and returns
inserted row(s)` (lines 64–79): status in {200, 201}, JSON content type,
pg-result shape, and `rows.length` greater than zero. -/
def postCreateTest (res : HttpResponse) : Bool :=
  (res.status == 200 || res.status == 201)
    && ctIncludesJson res.contentType
    && assertPgResultShape res.body
    && decide (0 < (rowsOf res.body).length)

/-- Pass predicate of the test `GET /people/:uuid — returns 200 for an
existing uuid` (lines 107–121), over the create response and the follow-up
read response: the create body has pg-result shape and `rows[0]?.uuid` is a
string; the read returns 200 with JSON content type and pg-result shape. -/
def getExistingTest (cres gres : HttpResponse) : Bool :=
  assertPgResultShape cres.body
    && isStrVal (firstRowUuid cres.body)
    && (gres.status == 200)
    && ctIncludesJson gres.contentType
    && assertPgResultShape gres.body

/-- Pass predicate of the test `GET /people/:uuid — returns row(s) for the
requested uuid` (lines 123–138): the create body has pg-result shape; the
read returns 200 with pg-result shape, and when its first row exists and
carries a `uuid` property that property equals the created `rows[0]?.uuid`. -/
def getRoundTripTest (cres gres : HttpResponse) : Bool :=
  assertPgResultShape cres.body
    && (gres.status == 200)
    && assertPgResultShape gres.body
    && (match (rowsOf gres.body).head? with
        | some row =>
            match row.getProp "uuid" with
            | some v => decide (some v = firstRowUuid cres.body)
            | none => true
        | none => true)

/-- The suite's composite requirement on a create response and its follow-up
read-by-uuid response: the conjunction of the three tests' assertions. -/
def suiteCreateRead (cres gres : HttpResponse) : Bool :=
  postCreateTest cres && getExistingTest cres gres && getRoundTripTest cres gres

/-- Claim C1's property in the spec's words (the create-then-read round trip
of spec.md §8): create status in {200, 201}, body with a non-empty `rows`
array whose first element carries a string `uuid`; read status 200 with a
`rows` array whose first element, when present and carrying a `uuid` field,
has that field equal to the created one. -/
def specClaimCreateRead (cres gres : HttpResponse) : Bool :=
  (cres.status == 200 || cres.status == 201)
    && assertPgResultShape cres.body
    && decide (0 < (rowsOf cres.body).length)
    && isStrVal (firstRowUuid cres.body)
    && (gres.status == 200)
    && assertPgResultShape gres.body
    && (match (rowsOf gres.body).head? with
        | some row =>
            match row.getProp "uuid" with
            | some v => decide (some v = firstRowUuid cres.body)
            | none => true
        | none => true)

/-!
The modelled People Resource Service.

`spec.md` describes the service the suite exercises; no implementation is in
the repository, so the service is modelled from the spec: a store of person
records (present rows plus the set of uuids ever deleted, recording the
"never resurrected" invariant of §3), and per-operation relations listing the
responses and successor stores the spec allows.
-/

/-- Modelled from the spec: a stored Person record — the server-assigned
`uuid` plus the persisted JSON fields (spec.md §3). -/
structure PersonRecord where
  uuid : String
  fields : List (String × JSValue)
  deriving DecidableEq

/-- Modelled from the spec: the relational store owning Person records —
the present records, plus every uuid that has transitioned to *deleted*
(spec.md §3: a deleted uuid is never reassigned or resurrected). -/
structure Store where
  present : List PersonRecord
  deletedUuids : List String
  deriving DecidableEq

/-- A stored record as the JSON row the service returns: the `uuid` field
followed by the persisted fields. -/
def PersonRecord.toRow (r : PersonRecord) : JSValue :=
  jObjOf (("uuid", .jStr r.uuid) :: r.fields)

/-- Modelled from the spec: type compatibility of one provided field with
the Person attribute types of spec.md §3 (`name`/`sex` strings, the six
numeric attributes numbers; unknown keys unconstrained). -/
def fieldTypeOk (k : String) (v : JSValue) : Bool :=
  if k = "name" || k = "sex" then
    match v with
    | .jStr _ => true
    | _ => false
  else if k = "survived" || k = "pclass" || k = "age"
      || k = "siblings_spouses_abroad" || k = "parents_children_abroad"
      || k = "fare" then
    match v with
    | .jNum _ => true
    | _ => false
  else true

/-- Modelled from the spec: request-body validation for create/update
(spec.md §4): the body must be a JSON object, a structurally empty body is a
validation failure, and every provided field must be type-compatible. -/
def validPersonBody (b : JSValue) : Bool :=
  b.isObj && !(objFields b).isEmpty
    && (objFields b).all (fun kv => fieldTypeOk kv.1 kv.2)

/-- A status in the 4xx band of spec.md §7 ([400, 499]). -/
def isClientError (s : Nat) : Bool :=
  decide (400 ≤ s) && decide (s ≤ 499)

/-- Some present record carries the uuid. -/
def uuidPresent (st : Store) (u : String) : Bool :=
  st.present.any (fun r => r.uuid == u)

/-- The present record with the uuid, when one exists. -/
def findRecord (st : Store) (u : String) : Option PersonRecord :=
  st.present.find? (fun r => r.uuid == u)

/-- The response body carries the given rows: it is an object whose `rows`
property is exactly that array (other envelope fields unconstrained,
mirroring spec.md §4's "at minimum a rows field"). -/
def bodyHasRows (b : JSValue) (rows : List JSValue) : Bool :=
  b.isObj && decide (b.getProp "rows" = some (jArrOf rows))

/-- A body indicating no insertion occurred (spec.md §4 create failure
policy): JSON `null`, or an envelope with an empty row collection. -/
def nullOrEmptyRows (b : JSValue) : Bool :=
  decide (b = .jNull) || bodyHasRows b []

/-- JSON `null`, or any pg-result-shaped envelope (the update success body
of spec.md §4, which may have an empty row collection). -/
def nullOrRowsBody (b : JSValue) : Bool :=
  decide (b = .jNull) || assertPgResultShape b

/-- The store after persisting one new record (spec.md §4 create success). -/
def insertRecord (st : Store) (u : String) (body : JSValue) : Store :=
  ⟨st.present ++ [⟨u, objFields body⟩], st.deletedUuids⟩

/-- Overwrite stored fields with the supplied values (spec.md §4 update
side effect), key by key in body order. -/
def updateFields (old : List (String × JSValue)) (body : JSValue) : List (String × JSValue) :=
  (objFields body).foldl (fun acc kv => objSet acc kv.1 kv.2) old

/-- The store after an update addressed at `u`: the addressed record's
fields are overwritten; its `uuid` and every other record are unchanged. -/
def updateRecord (st : Store) (u : String) (body : JSValue) : Store :=
  ⟨st.present.map (fun r =>
      if r.uuid = u then ⟨r.uuid, updateFields r.fields body⟩ else r),
    st.deletedUuids⟩

/-- The store after deleting `u`: the record leaves the present rows and
`u` joins the deleted uuids (spec.md §3 lifecycle). -/
def removeRecord (st : Store) (u : String) : Store :=
  ⟨st.present.filter (fun r => !(r.uuid == u)), u :: st.deletedUuids⟩

/-- Modelled from the spec: the responses `GET /people` may return
(spec.md §4 List): always 200, JSON, an envelope carrying every present
record as a row. -/
def listAllowed (st : Store) (resp : HttpResponse) : Bool :=
  (resp.status == 200)
    && ctIncludesJson resp.contentType
    && bodyHasRows resp.body (st.present.map PersonRecord.toRow)

/-- Modelled from the spec: the outcomes `POST /people` may produce
(spec.md §4 Create).  `newUuid` is the identifier the server assigns on
success: fresh — neither present nor ever deleted (spec.md §3 invariants).
On a valid body: status 200 or 201, JSON, an envelope whose rows carry the
new record, and the record is persisted.  On a validation failure: 400 or
422, or 200 with a null/empty result; the store is unchanged. -/
def createAllowed (st : Store) (body : JSValue) (newUuid : String)
    (resp : HttpResponse) (st2 : Store) : Bool :=
  if validPersonBody body then
    !(uuidPresent st newUuid)
      && !(decide (newUuid ∈ st.deletedUuids))
      && (resp.status == 200 || resp.status == 201)
      && ctIncludesJson resp.contentType
      && bodyHasRows resp.body [(PersonRecord.mk newUuid (objFields body)).toRow]
      && decide (st2 = insertRecord st newUuid body)
  else
    ((resp.status == 400 || resp.status == 422)
        || ((resp.status == 200) && nullOrEmptyRows resp.body))
      && decide (st2 = st)

/-- Modelled from the spec: the responses `GET /people/:uuid` may return
(spec.md §4 Read by id): 200 with the record's row when present, any 4xx
otherwise. -/
def getAllowed (st : Store) (u : String) (resp : HttpResponse) : Bool :=
  match findRecord st u with
  | some r =>
      (resp.status == 200)
        && ctIncludesJson resp.contentType
        && bodyHasRows resp.body [r.toRow]
  | none => isClientError resp.status

/-- Modelled from the spec: the outcomes `PUT /people/:uuid` may produce
(spec.md §4 Update by id).  Record present and body valid: 200, JSON, a
null-or-envelope body, fields overwritten in place.  Record present and body
invalid: 200 (benign no-op) or 400/422, store unchanged.  Record absent:
any 4xx, store unchanged. -/
def putAllowed (st : Store) (u : String) (body : JSValue)
    (resp : HttpResponse) (st2 : Store) : Bool :=
  match findRecord st u with
  | some _ =>
      if validPersonBody body then
        (resp.status == 200)
          && ctIncludesJson resp.contentType
          && nullOrRowsBody resp.body
          && decide (st2 = updateRecord st u body)
      else
        (resp.status == 200 || resp.status == 400 || resp.status == 422)
          && decide (st2 = st)
  | none => isClientError resp.status && decide (st2 = st)

/-- Modelled from the spec: the outcomes `DELETE /people/:uuid` may produce
(spec.md §4 Delete by id).  Record present: 200 or 204 and the record
transitions to *deleted*.  Record absent: idempotent 200/204 or a 404; the
store is unchanged. -/
def deleteAllowed (st : Store) (u : String) (resp : HttpResponse) (st2 : Store) : Bool :=
  match findRecord st u with
  | some _ =>
      (resp.status == 200 || resp.status == 204)
        && decide (st2 = removeRecord st u)
  | none =>
      (resp.status == 200 || resp.status == 204 || resp.status == 404)
        && decide (st2 = st)

/-- A client request to the service, with the uuid the server would assign
on a create made explicit. -/
inductive Request where
  | list : Request
  | create : JSValue → String → Request
  | readOne : String → Request
  | update : String → JSValue → Request
  | remove : String → Request
  deriving DecidableEq

/-- One request/response exchange the modelled service allows, with its
store transition (reads leave the store unchanged). -/
def stepAllowed (st : Store) : Request → HttpResponse → Store → Bool
  | .list, resp, st2 => listAllowed st resp && decide (st2 = st)
  | .create body u, resp, st2 => createAllowed st body u resp st2
  | .readOne u, resp, st2 => getAllowed st u resp && decide (st2 = st)
  | .update u body, resp, st2 => putAllowed st u body resp st2
  | .remove u, resp, st2 => deleteAllowed st u resp st2

/-- The store `st3` is reachable from `st1` by a (possibly empty) sequence
of allowed exchanges. -/
inductive Reachable : Store → Store → Prop where
  | refl (st : Store) : Reachable st st
  | step (st1 st2 st3 : Store) (req : Request) (resp : HttpResponse) :
      stepAllowed st1 req resp st2 = true → Reachable st2 st3 → Reachable st1 st3

/-- The well-known nil UUID of spec.md §6: syntactically valid, semantically
non-existent. -/
def nilUuid : String := "00000000-0000-0000-0000-000000000000"

/-- The record at `u` is gone for good: `u` is among the deleted uuids and
no present record carries it. -/
def DeadUuid (st : Store) (u : String) : Prop :=
  u ∈ st.deletedUuids ∧ uuidPresent st u = false

/-- The uuid has been seen by the store: a record carrying it is present,
or it has been deleted. -/
def LiveOrDead (st : Store) (u : String) : Prop :=
  uuidPresent st u = true ∨ u ∈ st.deletedUuids

/-- The `retries` block of `cypress.config.js`. -/
structure RetrySetting where
  runMode : Nat
  openMode : Nat
  deriving DecidableEq

/-- The `e2e` block of `cypress.config.js`. -/
structure E2ESetting where
  baseUrl : String
  specPattern : String
  supportFile : String
  video : Bool
  retries : RetrySetting
  deriving DecidableEq

/-- The object passed to `defineConfig` in `cypress.config.js`. -/
structure CypressConfig where
  e2e : E2ESetting
  deriving DecidableEq

/-- `cypress.config.js`: the exported runner configuration. -/
def cypressConfig : CypressConfig :=
  ⟨⟨"http://localhost:3000",
    "cypress/e2e/**/*.cy.\x7bjs,jsx,ts,tsx\x7d",
    "cypress/support/e2e.js",
    false,
    ⟨1, 0⟩⟩⟩

theorem jObjOf_getProp (l : List (String × JSValue)) (k : String) :
    (jObjOf l).getProp k = objGet l k := by
  induction l with
  | nil => rfl
  | cons kv rest ih =>
      obtain ⟨k0, v0⟩ := kv
      by_cases h : k0 = k <;> simp [jObjOf, JSValue.getProp, objGet, h, ih]

theorem uuidPresent_eq_false_iff (st : Store) (u : String) :
    uuidPresent st u = false ↔ findRecord st u = none := by
  simp [uuidPresent, findRecord, List.find?_eq_none, List.any_eq_true]

theorem uuidPresent_of_findRecord (st : Store) (u : String) (r : PersonRecord)
    (h : findRecord st u = some r) : uuidPresent st u = true := by
  by_contra hc
  rw [Bool.not_eq_true, uuidPresent_eq_false_iff, h] at hc
  exact Option.noConfusion hc

theorem uuidPresent_insert (st : Store) (u0 : String) (b : JSValue) (u : String) :
    uuidPresent (insertRecord st u0 b) u = (uuidPresent st u || (u0 == u)) := by
  simp [uuidPresent, insertRecord, List.any_append]

theorem map_uuid_of_update (l : List PersonRecord) (u0 : String) (b : JSValue) :
    (l.map (fun r =>
        if r.uuid = u0 then PersonRecord.mk r.uuid (updateFields r.fields b) else r)).map
        PersonRecord.uuid
      = l.map PersonRecord.uuid := by
  induction l with
  | nil => rfl
  | cons r rest ih => by_cases h : r.uuid = u0 <;> simp [h, ih]

theorem any_uuid_eq_any_map (l : List PersonRecord) (u : String) :
    (l.any fun r => r.uuid == u) = (l.map PersonRecord.uuid).any (fun s => s == u) := by
  induction l with
  | nil => rfl
  | cons r rest ih => simp [ih]

theorem uuidPresent_eq_any_map (st : Store) (u : String) :
    uuidPresent st u = (st.present.map PersonRecord.uuid).any (fun s => s == u) :=
  any_uuid_eq_any_map st.present u

theorem present_map_uuid_updateRecord (st : Store) (u0 : String) (b : JSValue) :
    (updateRecord st u0 b).present.map PersonRecord.uuid
      = st.present.map PersonRecord.uuid := by
  simp only [updateRecord]
  exact map_uuid_of_update st.present u0 b

theorem uuidPresent_updateRecord (st : Store) (u0 : String) (b : JSValue) (u : String) :
    uuidPresent (updateRecord st u0 b) u = uuidPresent st u := by
  rw [uuidPresent_eq_any_map, uuidPresent_eq_any_map, present_map_uuid_updateRecord]

theorem uuidPresent_remove_self (st : Store) (u : String) :
    uuidPresent (removeRecord st u) u = false := by
  simp [uuidPresent, removeRecord, List.any_eq_true, List.mem_filter]

theorem uuidPresent_remove_false (st : Store) (u0 u : String)
    (h : uuidPresent st u = false) : uuidPresent (removeRecord st u0) u = false := by
  rw [Bool.eq_false_iff] at h ⊢
  intro hc
  apply h
  simp only [uuidPresent, removeRecord, List.any_eq_true] at hc ⊢
  obtain ⟨r, hr, hru⟩ := hc
  exact ⟨r, (List.mem_filter.mp hr).1, hru⟩

theorem uuidPresent_remove_ne (st : Store) (u0 u : String) (h : u0 ≠ u) :
    uuidPresent (removeRecord st u0) u = uuidPresent st u := by
  simp only [uuidPresent, removeRecord]
  induction st.present with
  | nil => rfl
  | cons r rest ih =>
      by_cases hr : r.uuid = u0
      · have hru : (r.uuid == u) = false := by
          rw [hr]
          simp [h]
        rw [List.filter_cons]
        rw [show (!(r.uuid == u0)) = false by simp [hr]]
        simp [hru, ih]
      · rw [List.filter_cons]
        rw [show (!(r.uuid == u0)) = true by simp [hr]]
        simp [ih]


theorem createAllowed_present (st st2 : Store) (body : JSValue) (u : String)
    (resp : HttpResponse)
    (hv : validPersonBody body = true)
    (hc : createAllowed st body u resp st2 = true) :
    uuidPresent st2 u = true := by
  unfold createAllowed at hc
  rw [if_pos hv] at hc
  simp only [Bool.and_eq_true, decide_eq_true_eq] at hc
  rw [hc.2, uuidPresent_insert]
  simp

theorem stepAllowed_preserves_liveOrDead (st1 st2 : Store) (req : Request)
    (resp : HttpResponse) (u : String)
    (hstep : stepAllowed st1 req resp st2 = true)
    (h : LiveOrDead st1 u) : LiveOrDead st2 u := by
  cases req with
  | list =>
      simp only [stepAllowed, Bool.and_eq_true, decide_eq_true_eq] at hstep
      rw [hstep.2]
      exact h
  | readOne v =>
      simp only [stepAllowed, Bool.and_eq_true, decide_eq_true_eq] at hstep
      rw [hstep.2]
      exact h
  | create body v =>
      simp only [stepAllowed, createAllowed] at hstep
      split at hstep
      all_goals simp only [Bool.and_eq_true, decide_eq_true_eq] at hstep
      · rw [hstep.2]
        rcases h with hp | hd
        · exact Or.inl (by rw [uuidPresent_insert, hp]; rfl)
        · exact Or.inr hd
      · rw [hstep.2]
        exact h
  | update v body =>
      simp only [stepAllowed, putAllowed] at hstep
      split at hstep
      · split at hstep
        all_goals simp only [Bool.and_eq_true, decide_eq_true_eq] at hstep
        · rw [hstep.2]
          rcases h with hp | hd
          · exact Or.inl (by rw [uuidPresent_updateRecord]; exact hp)
          · exact Or.inr hd
        · rw [hstep.2]
          exact h
      · simp only [Bool.and_eq_true, decide_eq_true_eq] at hstep
        rw [hstep.2]
        exact h
  | remove v =>
      simp only [stepAllowed, deleteAllowed] at hstep
      split at hstep
      all_goals simp only [Bool.and_eq_true, decide_eq_true_eq] at hstep
      · rw [hstep.2]
        rcases h with hp | hd
        · by_cases hvu : v = u
          · right
            show u ∈ v :: st1.deletedUuids
            rw [hvu]
            exact List.mem_cons_self u st1.deletedUuids
          · exact Or.inl (by rw [uuidPresent_remove_ne _ _ _ hvu]; exact hp)
        · right
          exact List.mem_cons_of_mem v hd
      · rw [hstep.2]
        exact h

theorem stepAllowed_preserves_dead (st1 st2 : Store) (req : Request)
    (resp : HttpResponse) (u : String)
    (hstep : stepAllowed st1 req resp st2 = true)
    (h : DeadUuid st1 u) : DeadUuid st2 u := by
  obtain ⟨hdel, hnp⟩ := h
  cases req with
  | list =>
      simp only [stepAllowed, Bool.and_eq_true, decide_eq_true_eq] at hstep
      rw [hstep.2]
      exact ⟨hdel, hnp⟩
  | readOne v =>
      simp only [stepAllowed, Bool.and_eq_true, decide_eq_true_eq] at hstep
      rw [hstep.2]
      exact ⟨hdel, hnp⟩
  | create body v =>
      simp only [stepAllowed, createAllowed] at hstep
      split at hstep
      all_goals simp only [Bool.and_eq_true, Bool.not_eq_true', decide_eq_true_eq,
        decide_eq_false_iff_not] at hstep
      · obtain ⟨⟨⟨⟨⟨hfresh, hvdel⟩, hstat⟩, hct⟩, hrows⟩, hst⟩ := hstep
        have hvu : v ≠ u := by
          intro he
          rw [he] at hvdel
          exact hvdel hdel
        rw [hst]
        refine ⟨hdel, ?_⟩
        rw [uuidPresent_insert, hnp]
        simp [beq_eq_false_iff_ne, hvu]
      · rw [hstep.2]
        exact ⟨hdel, hnp⟩
  | update v body =>
      simp only [stepAllowed, putAllowed] at hstep
      split at hstep
      · split at hstep
        all_goals simp only [Bool.and_eq_true, decide_eq_true_eq] at hstep
        · rw [hstep.2]
          exact ⟨hdel, by rw [uuidPresent_updateRecord]; exact hnp⟩
        · rw [hstep.2]
          exact ⟨hdel, hnp⟩
      · simp only [Bool.and_eq_true, decide_eq_true_eq] at hstep
        rw [hstep.2]
        exact ⟨hdel, hnp⟩
  | remove v =>
      simp only [stepAllowed, deleteAllowed] at hstep
      split at hstep
      all_goals simp only [Bool.and_eq_true, decide_eq_true_eq] at hstep
      · rw [hstep.2]
        exact ⟨List.mem_cons_of_mem v hdel, uuidPresent_remove_false st1 v u hnp⟩
      · rw [hstep.2]
        exact ⟨hdel, hnp⟩

theorem reachable_preserves_liveOrDead (st1 st2 : Store) (u : String)
    (t : Reachable st1 st2) (h : LiveOrDead st1 u) : LiveOrDead st2 u := by
  induction t with
  | refl st => exact h
  | step s1 s2 s3 req resp hs _ ih =>
      exact ih (stepAllowed_preserves_liveOrDead s1 s2 req resp u hs h)

theorem reachable_preserves_dead (st1 st2 : Store) (u : String)
    (t : Reachable st1 st2) (h : DeadUuid st1 u) : DeadUuid st2 u := by
  induction t with
  | refl st => exact h
  | step s1 s2 s3 req resp hs _ ih =>
      exact ih (stepAllowed_preserves_dead s1 s2 req resp u hs h)

theorem deleteAllowed_dead (st st2 : Store) (u : String) (resp : HttpResponse)
    (hd : deleteAllowed st u resp st2 = true) (h : LiveOrDead st u) :
    DeadUuid st2 u := by
  unfold deleteAllowed at hd
  split at hd
  all_goals simp only [Bool.and_eq_true, decide_eq_true_eq] at hd
  · rw [hd.2]
    exact ⟨List.mem_cons_self u st.deletedUuids, uuidPresent_remove_self st u⟩
  · rename_i heq
    rw [hd.2]
    rcases h with hp | hdel
    · rw [← uuidPresent_eq_false_iff] at heq
      rw [hp] at heq
      exact Bool.noConfusion heq
    · refine ⟨hdel, ?_⟩
      rw [uuidPresent_eq_false_iff]
      exact heq

theorem getAllowed_clientError (st : Store) (u : String) (resp : HttpResponse)
    (hp : uuidPresent st u = false) (hg : getAllowed st u resp = true) :
    isClientError resp.status = true := by
  unfold getAllowed at hg
  rw [(uuidPresent_eq_false_iff st u).mp hp] at hg
  exact hg

/-- Claim C1: the suite requires of the create-then-read round trip what the
spec states — any pair of create and follow-up read responses that passes the
suite's POST and GET-by-uuid tests has a create status in {200, 201} with a
non-empty `rows` whose first element carries a string `uuid`, and a read
status 200 whose first row, when present and carrying a `uuid` field, has it
equal to the created one. -/
theorem claim_create_read_round_trip (cres gres : HttpResponse)
    (h : suiteCreateRead cres gres = true) :
    specClaimCreateRead cres gres = true := by
  unfold suiteCreateRead postCreateTest getExistingTest getRoundTripTest at h
  unfold specClaimCreateRead
  simp only [Bool.and_eq_true] at h ⊢
  tauto

/-- Witness for C1: a concrete passing create/read response pair. -/
theorem claim_create_read_round_trip_witness :
    specClaimCreateRead
      ⟨201, "application/json",
        jObjOf [("rows", jArrOf [jObjOf [("uuid", .jStr "u1")]])]⟩
      ⟨200, "application/json",
        jObjOf [("rows", jArrOf [jObjOf [("uuid", .jStr "u1")]])]⟩ = true :=
  claim_create_read_round_trip _ _ (by decide)

/-- Claim C2: delete is terminal for reads — once a record created by
`POST /people` has been deleted, every later allowed `GET /people/{uuid}`
response for that uuid carries a 4xx status, whatever allowed exchanges
happen in between (the record is never resurrected). -/
theorem claim_delete_terminal_for_reads
    (st0 st1 sta st2 stb : Store) (body : JSValue) (u : String)
    (cresp dresp gresp : HttpResponse)
    (hv : validPersonBody body = true)
    (hc : createAllowed st0 body u cresp st1 = true)
    (t1 : Reachable st1 sta)
    (hd : deleteAllowed sta u dresp st2 = true)
    (t2 : Reachable st2 stb)
    (hg : getAllowed stb u gresp = true) :
    isClientError gresp.status = true := by
  have h1 : LiveOrDead st1 u :=
    Or.inl (createAllowed_present st0 st1 body u cresp hv hc)
  have h2 : LiveOrDead sta u := reachable_preserves_liveOrDead st1 sta u t1 h1
  have h3 : DeadUuid st2 u := deleteAllowed_dead sta st2 u dresp hd h2
  have h4 : DeadUuid stb u := reachable_preserves_dead st2 stb u t2 h3
  exact getAllowed_clientError stb u gresp h4.2 hg

/-- Witness for C2: a concrete create, delete, and rejected re-read. -/
theorem claim_delete_terminal_for_reads_witness :
    isClientError 404 = true :=
  claim_delete_terminal_for_reads
    ⟨[], []⟩
    ⟨[⟨"u1", [("name", .jStr "a")]⟩], []⟩
    ⟨[⟨"u1", [("name", .jStr "a")]⟩], []⟩
    ⟨[], ["u1"]⟩
    ⟨[], ["u1"]⟩
    (jObjOf [("name", .jStr "a")]) "u1"
    ⟨201, "application/json",
      jObjOf [("rows", jArrOf [jObjOf [("uuid", .jStr "u1"), ("name", .jStr "a")]])]⟩
    ⟨204, "application/json", .jNull⟩
    ⟨404, "text/plain", .jNull⟩
    (by decide) (by decide) (Reachable.refl _) (by decide) (Reachable.refl _)
    (by decide)

/-- Claim C4: reads and updates addressed at the nil UUID are rejected with
a status in [400, 499] whenever no present record carries that uuid. -/
theorem claim_nil_uuid_read_update_rejected :
    (∀ st resp, uuidPresent st nilUuid = false →
        getAllowed st nilUuid resp = true → isClientError resp.status = true)
    ∧ (∀ st st2 body resp, uuidPresent st nilUuid = false →
        putAllowed st nilUuid body resp st2 = true →
        isClientError resp.status = true) := by
  constructor
  · intro st resp hp hg
    exact getAllowed_clientError st nilUuid resp hp hg
  · intro st st2 body resp hp hput
    unfold putAllowed at hput
    rw [(uuidPresent_eq_false_iff st nilUuid).mp hp] at hput
    simp only [Bool.and_eq_true] at hput
    exact hput.1

/-- Witness for C4: concrete rejected read and update at the nil UUID over
the empty store. -/
theorem claim_nil_uuid_read_update_rejected_witness :
    isClientError 404 = true ∧ isClientError 400 = true := by
  have h := claim_nil_uuid_read_update_rejected
  exact ⟨h.1 ⟨[], []⟩ ⟨404, "text/plain", .jNull⟩ (by decide) (by decide),
    h.2 ⟨[], []⟩ ⟨[], []⟩ (jObjOf [("name", .jStr "x")]) ⟨400, "text/plain", .jNull⟩
      (by decide) (by decide)⟩

/-- Claim C5: deleting the nil UUID when no record carries it can only
answer 200, 204 or 404 — in particular never a 5xx. -/
theorem claim_nil_uuid_delete_statuses
    (st st2 : Store) (resp : HttpResponse)
    (hp : uuidPresent st nilUuid = false)
    (hd : deleteAllowed st nilUuid resp st2 = true) :
    resp.status = 200 ∨ resp.status = 204 ∨ resp.status = 404 := by
  unfold deleteAllowed at hd
  rw [(uuidPresent_eq_false_iff st nilUuid).mp hp] at hd
  simp only [Bool.and_eq_true, Bool.or_eq_true, beq_iff_eq] at hd
  tauto

/-- Witness for C5: a concrete 404 answer to deleting the nil UUID. -/
theorem claim_nil_uuid_delete_statuses_witness :
    (404 : Nat) = 200 ∨ (404 : Nat) = 204 ∨ (404 : Nat) = 404 :=
  claim_nil_uuid_delete_statuses ⟨[], []⟩ ⟨[], []⟩ ⟨404, "text/plain", .jNull⟩
    (by decide) (by decide)

/-- Claim C6: listing over a store holding zero person records is allowed
only with status 200 and an empty `rows` sequence. -/
theorem claim_list_empty_store
    (ds : List String) (resp : HttpResponse)
    (h : listAllowed ⟨[], ds⟩ resp = true) :
    resp.status = 200 ∧ resp.body.getProp "rows" = some (jArrOf [])
      ∧ (rowsOf resp.body).length = 0 := by
  unfold listAllowed bodyHasRows at h
  simp only [Bool.and_eq_true, beq_iff_eq, decide_eq_true_eq, List.map_nil] at h
  obtain ⟨⟨hst, hct⟩, hobj, hrows⟩ := h
  refine ⟨hst, hrows, ?_⟩
  simp only [rowsOf, hrows]
  rfl

/-- Witness for C6: the canonical empty-list response. -/
theorem claim_list_empty_store_witness :
    (200 : Nat) = 200
    ∧ (jObjOf [("rows", jArrOf [])]).getProp "rows" = some (jArrOf [])
    ∧ (rowsOf (jObjOf [("rows", jArrOf [])])).length = 0 :=
  claim_list_empty_store [] ⟨200, "application/json", jObjOf [("rows", jArrOf [])]⟩
    (by decide)

/-- Claim C3: validation-failing create/update bodies never draw a 5xx.
The structurally empty body and the wrong-typed-`name` payloads built by
`makeTitanicPerson` are validation failures, every allowed create response
for an invalid body has status 200, 400 or 422, and so does every allowed
update response for an invalid body addressed at an existing record. -/
theorem claim_invalid_body_statuses :
    validPersonBody (jObjOf []) = false
    ∧ (∀ now rand,
        validPersonBody (makeTitanicPerson [("name", .jNum 12345)] now rand) = false)
    ∧ (∀ now rand,
        validPersonBody (makeTitanicPerson [("name", .jNum 999)] now rand) = false)
    ∧ (∀ st st2 body u resp, validPersonBody body = false →
        createAllowed st body u resp st2 = true →
        resp.status = 200 ∨ resp.status = 400 ∨ resp.status = 422)
    ∧ (∀ st st2 u r body resp, findRecord st u = some r →
        validPersonBody body = false →
        putAllowed st u body resp st2 = true →
        resp.status = 200 ∨ resp.status = 400 ∨ resp.status = 422) := by
  refine ⟨rfl, fun now rand => rfl, fun now rand => rfl, ?_, ?_⟩
  · intro st st2 body u resp hv hc
    unfold createAllowed at hc
    rw [if_neg (by simp [hv])] at hc
    simp only [Bool.and_eq_true, Bool.or_eq_true, beq_iff_eq] at hc
    tauto
  · intro st st2 u r body resp hr hv hp
    unfold putAllowed at hp
    rw [hr] at hp
    rw [if_neg (by simp [hv])] at hp
    simp only [Bool.and_eq_true, Bool.or_eq_true, beq_iff_eq] at hp
    tauto

/-- Witness for C3: a 200-with-null answer to creating from the empty
body over the empty store. -/
theorem claim_invalid_body_statuses_witness :
    (200 : Nat) = 200 ∨ (200 : Nat) = 400 ∨ (200 : Nat) = 422 := by
  have h := claim_invalid_body_statuses
  exact h.2.2.2.1 ⟨[], []⟩ ⟨[], []⟩ (jObjOf []) "u1"
    ⟨200, "application/json", .jNull⟩ (by decide) (by decide)

/-- Claim C7: an allowed update of a present record with a well-typed body
answers 200 with JSON content type and leaves the identifier untouched —
the stored uuid sequence is unchanged and the addressed uuid stays
present. -/
theorem claim_update_preserves_identity
    (st st2 : Store) (u : String) (r : PersonRecord) (body : JSValue)
    (resp : HttpResponse)
    (hr : findRecord st u = some r)
    (hv : validPersonBody body = true)
    (hp : putAllowed st u body resp st2 = true) :
    resp.status = 200 ∧ ctIncludesJson resp.contentType = true
      ∧ st2.present.map PersonRecord.uuid = st.present.map PersonRecord.uuid
      ∧ uuidPresent st2 u = true := by
  unfold putAllowed at hp
  rw [hr] at hp
  rw [if_pos hv] at hp
  simp only [Bool.and_eq_true, beq_iff_eq, decide_eq_true_eq] at hp
  obtain ⟨⟨⟨hst, hct⟩, hbody⟩, hst2⟩ := hp
  subst hst2
  exact ⟨hst, hct, present_map_uuid_updateRecord st u body,
    by rw [uuidPresent_updateRecord]; exact uuidPresent_of_findRecord st u r hr⟩

/-- Witness for C7: renaming the only record from "a" to "b". -/
theorem claim_update_preserves_identity_witness :
    (200 : Nat) = 200 ∧ ctIncludesJson "application/json" = true
      ∧ (Store.mk [⟨"u1", [("name", .jStr "b")]⟩] []).present.map PersonRecord.uuid
          = (Store.mk [⟨"u1", [("name", .jStr "a")]⟩] []).present.map PersonRecord.uuid
      ∧ uuidPresent ⟨[⟨"u1", [("name", .jStr "b")]⟩], []⟩ "u1" = true :=
  claim_update_preserves_identity
    ⟨[⟨"u1", [("name", .jStr "a")]⟩], []⟩
    ⟨[⟨"u1", [("name", .jStr "b")]⟩], []⟩
    "u1" ⟨"u1", [("name", .jStr "a")]⟩ (jObjOf [("name", .jStr "b")])
    ⟨200, "application/json", .jNull⟩
    (by decide) (by decide) (by decide)

theorem jArrOf_isArr (l : List JSValue) : (jArrOf l).isArr = true := by
  cases l <;> rfl

theorem assertPgResultShape_of_bodyHasRows (b : JSValue) (rows : List JSValue)
    (h : bodyHasRows b rows = true) : assertPgResultShape b = true := by
  simp only [bodyHasRows, Bool.and_eq_true, decide_eq_true_eq] at h
  obtain ⟨hobj, hrows⟩ := h
  unfold assertPgResultShape
  rw [hrows]
  simp [hobj, jArrOf_isArr rows]

/-- Claim C8: the success envelope.  `assertPgResultShape` asserts exactly
"an object whose `rows` property is an array" (empty allowed, other fields
unconstrained), and every modelled success response carrying query results —
list, create success, read-by-uuid success, and update success with a
non-null body — satisfies it. -/
theorem claim_response_envelope :
    (∀ b, assertPgResultShape b = true ↔
        b.isObj = true ∧ ∃ v, b.getProp "rows" = some v ∧ v.isArr = true)
    ∧ (∀ st resp, listAllowed st resp = true → assertPgResultShape resp.body = true)
    ∧ (∀ st st2 body u resp, validPersonBody body = true →
        createAllowed st body u resp st2 = true →
        assertPgResultShape resp.body = true)
    ∧ (∀ st u r resp, findRecord st u = some r →
        getAllowed st u resp = true → assertPgResultShape resp.body = true)
    ∧ (∀ st st2 u r body resp, findRecord st u = some r →
        validPersonBody body = true → putAllowed st u body resp st2 = true →
        resp.body ≠ .jNull → assertPgResultShape resp.body = true)
    ∧ assertPgResultShape (jObjOf [("rows", jArrOf [])]) = true := by
  refine ⟨?_, ?_, ?_, ?_, ?_, by decide⟩
  · intro b
    unfold assertPgResultShape
    cases hh : b.getProp "rows" with
    | none => simp [hh]
    | some v => simp [hh, Bool.and_eq_true]
  · intro st resp h
    unfold listAllowed at h
    simp only [Bool.and_eq_true] at h
    exact assertPgResultShape_of_bodyHasRows resp.body _ h.2
  · intro st st2 body u resp hv hc
    unfold createAllowed at hc
    rw [if_pos hv] at hc
    simp only [Bool.and_eq_true] at hc
    exact assertPgResultShape_of_bodyHasRows resp.body _ hc.1.2
  · intro st u r resp hr hg
    unfold getAllowed at hg
    rw [hr] at hg
    simp only [Bool.and_eq_true] at hg
    exact assertPgResultShape_of_bodyHasRows resp.body _ hg.2
  · intro st st2 u r body resp hr hv hp hnn
    unfold putAllowed at hp
    rw [hr] at hp
    rw [if_pos hv] at hp
    simp only [Bool.and_eq_true] at hp
    have hbody : nullOrRowsBody resp.body = true := hp.1.2
    unfold nullOrRowsBody at hbody
    simp only [Bool.or_eq_true, decide_eq_true_eq] at hbody
    rcases hbody with hnull | hshape
    · exact absurd hnull hnn
    · exact hshape

/-- Witness for C8: the empty-store list response with a `rowCount`
metadata field also carries the envelope. -/
theorem claim_response_envelope_witness :
    assertPgResultShape (jObjOf [("rows", jArrOf []), ("rowCount", .jNum 0)]) = true := by
  have h := claim_response_envelope
  exact h.2.1 ⟨[], []⟩
    ⟨200, "application/json", jObjOf [("rows", jArrOf []), ("rowCount", .jNum 0)]⟩
    (by decide)

/-- Claim C9: the harness retries a failed test exactly once in run mode and
not at all in open mode; the setting lives in the runner configuration
object, not in any of the service-facing test predicates. -/
theorem claim_retry_configuration :
    cypressConfig.e2e.retries.runMode = 1
      ∧ cypressConfig.e2e.retries.openMode = 0 :=
  ⟨rfl, rfl⟩

theorem objGet_objSet_self (l : List (String × JSValue)) (k : String) (v : JSValue) :
    objGet (objSet l k v) k = some v := by
  induction l with
  | nil => simp [objSet, objGet]
  | cons kv rest ih =>
      obtain ⟨k0, v0⟩ := kv
      by_cases h : k0 = k <;> simp [objSet, objGet, h, ih]

theorem objGet_objSet_ne (l : List (String × JSValue)) (k key : String) (v : JSValue)
    (h : k ≠ key) : objGet (objSet l k v) key = objGet l key := by
  induction l with
  | nil =>
      show (if k = key then some v else none) = none
      rw [if_neg h]
  | cons kv rest ih =>
      obtain ⟨k0, v0⟩ := kv
      show objGet (if k0 = k then (k, v) :: rest else (k0, v0) :: objSet rest k v) key
          = objGet ((k0, v0) :: rest) key
      by_cases h0 : k0 = k
      · rw [if_pos h0]
        show (if k = key then some v else objGet rest key)
            = (if k0 = key then some v0 else objGet rest key)
        rw [if_neg h, if_neg (fun he => h (h0.symm.trans he))]
      · rw [if_neg h0]
        show (if k0 = key then some v0 else objGet (objSet rest k v) key)
            = (if k0 = key then some v0 else objGet rest key)
        by_cases h1 : k0 = key
        · rw [if_pos h1, if_pos h1]
        · rw [if_neg h1, if_neg h1, ih]

theorem objGet_eq_none_of_not_mem (l : List (String × JSValue)) (k : String)
    (h : k ∉ l.map Prod.fst) : objGet l k = none := by
  induction l with
  | nil => rfl
  | cons kv rest ih =>
      obtain ⟨k0, v0⟩ := kv
      simp only [List.map_cons, List.mem_cons] at h
      push_neg at h
      rw [objGet, if_neg (fun he => h.1 he.symm)]
      exact ih h.2

theorem objGet_spreadMerge_not_mem (base ov : List (String × JSValue)) (k : String)
    (h : objGet ov k = none) :
    objGet (spreadMerge base ov) k = objGet base k := by
  induction ov generalizing base with
  | nil => rfl
  | cons kv rest ih =>
      obtain ⟨k0, v0⟩ := kv
      simp only [objGet] at h
      by_cases hk : k0 = k
      · rw [if_pos hk] at h
        exact Option.noConfusion h
      · rw [if_neg hk] at h
        show objGet (spreadMerge (objSet base k0 v0) rest) k = objGet base k
        rw [ih (objSet base k0 v0) h, objGet_objSet_ne base k0 k v0 hk]

theorem objGet_spreadMerge_mem (base ov : List (String × JSValue)) (k : String)
    (v : JSValue)
    (hnd : (ov.map Prod.fst).Nodup)
    (h : objGet ov k = some v) :
    objGet (spreadMerge base ov) k = some v := by
  induction ov generalizing base with
  | nil => exact Option.noConfusion h
  | cons kv rest ih =>
      obtain ⟨k0, v0⟩ := kv
      simp only [List.map_cons, List.nodup_cons] at hnd
      obtain ⟨hk0, hndr⟩ := hnd
      simp only [objGet] at h
      by_cases hk : k0 = k
      · rw [if_pos hk] at h
        injection h with hv
        subst hv
        subst hk
        show objGet (spreadMerge (objSet base k0 v0) rest) k0 = some v0
        have hnone : objGet rest k0 = none := objGet_eq_none_of_not_mem rest k0 hk0
        rw [objGet_spreadMerge_not_mem (objSet base k0 v0) rest k0 hnone,
          objGet_objSet_self base k0 v0]
      · rw [if_neg hk] at h
        exact ih (objSet base k0 v0) hndr h

/-- Claim C10: `makeTitanicPerson(O)` — every field named in the overrides
takes the override's value, every other field keeps its default (survived 1,
pclass 3, sex "male", age 30, zero relatives, fare 7.25, and a `name`
produced by `uniqueName` beginning with "person" followed by a hyphen), and
overriding `name` with the number 12345 yields a number-valued `name`. -/
theorem claim_makeTitanicPerson
    (ov : List (String × JSValue)) (now rand : Nat)
    (hnd : (ov.map Prod.fst).Nodup) :
    (∀ k v, objGet ov k = some v →
        (makeTitanicPerson ov now rand).getProp k = some v)
    ∧ (∀ k, objGet ov k = none →
        (makeTitanicPerson ov now rand).getProp k = objGet (titanicDefaults now rand) k)
    ∧ objGet (titanicDefaults now rand) "survived" = some (.jNum 1)
    ∧ objGet (titanicDefaults now rand) "pclass" = some (.jNum 3)
    ∧ objGet (titanicDefaults now rand) "sex" = some (.jStr "male")
    ∧ objGet (titanicDefaults now rand) "age" = some (.jNum 30)
    ∧ objGet (titanicDefaults now rand) "siblings_spouses_abroad" = some (.jNum 0)
    ∧ objGet (titanicDefaults now rand) "parents_children_abroad" = some (.jNum 0)
    ∧ objGet (titanicDefaults now rand) "fare" = some (.jNum 7.25)
    ∧ objGet (titanicDefaults now rand) "name"
        = some (.jStr (uniqueName "person" now rand))
    ∧ (∃ tail, uniqueName "person" now rand = "person-" ++ tail)
    ∧ (makeTitanicPerson [("name", .jNum 12345)] now rand).getProp "name"
        = some (.jNum 12345) := by
  refine ⟨?_, ?_, rfl, rfl, rfl, rfl, rfl, rfl, rfl, rfl,
    ⟨toString now ++ "-" ++ toString rand, ?_⟩, rfl⟩
  · intro k v h
    rw [makeTitanicPerson, jObjOf_getProp]
    exact objGet_spreadMerge_mem (titanicDefaults now rand) ov k v hnd h
  · intro k h
    rw [makeTitanicPerson, jObjOf_getProp]
    exact objGet_spreadMerge_not_mem (titanicDefaults now rand) ov k h
  · have h1 : "person-" = "person" ++ "-" := rfl
    rw [uniqueName, h1]
    simp [String.append_assoc]

/-- Witness for C10: the `name: 12345` override used by the invalid-payload
tests. -/
theorem claim_makeTitanicPerson_witness :
    (makeTitanicPerson [("name", JSValue.jNum 12345)] 0 0).getProp "name"
      = some (JSValue.jNum 12345) :=
  (claim_makeTitanicPerson [("name", JSValue.jNum 12345)] 0 0 (by decide)).1
    "name" (JSValue.jNum 12345) (by decide)
